import Mathlib

/-!
Shallow embedding of the Deb repository's data-processing layer
(src/app/core/data/processor.py, src/app/core/data/db.py,
src/app/core/utils/date_utils.py, src/app/config/settings.py).

Conventions used throughout:
* Python floats are modelled as rationals (ℚ); the claims checked here
  only concern decimal literals, comparisons with zero and exact division,
  none of which distinguish binary floating point from ℚ on the inputs
  involved.
* pandas cell values are modelled by the inductive type Cell: a cell is
  missing (NaN/None), a string, an integer, or a number.
* Modules that the repository imports but whose sources are not part of
  the checked tree (DataNormalizer, extract_period_from_purpose,
  ActExtractor, DataValidator, the sqlite driver, the filesystem) are
  treated as parameters: the functions under verification are
  parameterised over them, and every theorem quantifies over those
  parameters, since none of the verified properties depend on their
  internals.
-/

namespace Deb

/-- Model of a pandas cell value: missing (NaN/None), string, int or float. -/
inductive Cell where
  | na : Cell
  | str (s : String) : Cell
  | int (n : Int) : Cell
  | num (q : ℚ) : Cell
deriving DecidableEq

/-- Model of pd.isna on a cell: true exactly for the missing value. -/
def pyIsNa : Cell → Bool
  | .na => true
  | _ => false

/-- Model of Python str() on a cell value.  str of NaN is "nan"; the
rendering of a float cell is modelled by the rational's repr (the claims
checked here never observe it). -/
def cellStr : Cell → String
  | .na => "nan"
  | .str s => s
  | .int n => toString n
  | .num q => toString q

/-- The non-breaking space character U+00A0. -/
def nbsp : Char := Char.ofNat 160

/-- Model of the chained replaces in DataProcessor._parse_bank_amount:
s.replace('\xa0', '').replace(' ', '').replace(',', '.').  Removing all
non-breaking spaces, then all spaces, then replacing every comma by a dot
is a single left-to-right pass over the characters. -/
def normalizeAmountChars : List Char → List Char
  | [] => []
  | c :: cs =>
    if c = ' ' ∨ c = nbsp then normalizeAmountChars cs
    else (if c = ',' then '.' else c) :: normalizeAmountChars cs

/-- Numeric value of a decimal digit character. -/
def digitVal (c : Char) : ℕ := c.toNat - 48

/-- Value of a big-endian list of decimal digit characters. -/
def natOfDigits (cs : List Char) : ℕ := cs.foldl (fun a c => 10 * a + digitVal c) 0

/-- Negate when the parsed literal carried a leading minus sign. -/
def applySign (neg : Bool) (q : ℚ) : ℚ := if neg then -q else q

/-- Model of Python float() restricted to plain decimal literals:
an optional sign, an integer part, an optional dot and fraction part,
with at least one digit overall.  The value of an accepted literal
ip.fp is (ip * 10^k + fp) / 10^k where k is the fraction length.
Inputs outside this fragment (exponents, inf/nan, underscores,
surrounding whitespace) are modelled as unparseable. -/
def pyFloatOfChars (cs : List Char) : Option ℚ :=
  let signed : Bool × List Char :=
    match cs with
    | '-' :: rest => (true, rest)
    | '+' :: rest => (false, rest)
    | _ => (false, cs)
  let neg := signed.1
  let body := signed.2
  let ip := body.takeWhile Char.isDigit
  let rest₁ := body.dropWhile Char.isDigit
  match rest₁ with
  | [] => if ip = [] then none else some (applySign neg (mkRat (natOfDigits ip) 1))
  | '.' :: rest₂ =>
    let fp := rest₂.takeWhile Char.isDigit
    let rest₃ := rest₂.dropWhile Char.isDigit
    if rest₃ = [] ∧ (ip ≠ [] ∨ fp ≠ []) then
      some (applySign neg
        (mkRat (natOfDigits ip * 10 ^ fp.length + natOfDigits fp) (10 ^ fp.length)))
    else none
  | _ => none

/-- DataProcessor._parse_bank_amount on the string produced by str(value):
normalize separators, then convert; an unparseable string yields 0.0. -/
def parseBankAmountStr (s : String) : ℚ :=
  match pyFloatOfChars (normalizeAmountChars s.toList) with
  | some q => q
  | none => 0

/-- DataProcessor._parse_bank_amount: NaN parses to 0.0, otherwise the
cell is rendered with str() and parsed after separator normalization. -/
def parseBankAmount (v : Cell) : ℚ :=
  if pyIsNa v then 0 else parseBankAmountStr (cellStr v)

/-! ### strptime / strftime model

Model of datetime.strptime restricted to the format directives the
repository uses (%d %m %Y %H %M %S and literal characters), following
CPython's _strptime TimeRE character classes, including regex
backtracking across alternatives, and datetime's calendar validation. -/

/-- The numeric fields a format directive can bind. -/
inductive NumField where
  | year | month | day | hour | minute | second
deriving DecidableEq

/-- One token of a strptime format string: a literal character or a
numeric directive. -/
inductive Tok where
  | lit (c : Char)
  | num (f : NumField)
deriving DecidableEq

/-- Fields collected while matching, with CPython strptime defaults
(year 1900, month 1, day 1, midnight). -/
structure PFields where
  year : ℕ := 1900
  month : ℕ := 1
  day : ℕ := 1
  hour : ℕ := 0
  minute : ℕ := 0
  second : ℕ := 0
deriving DecidableEq

def setField (f : NumField) (v : ℕ) (p : PFields) : PFields :=
  match f with
  | .year => { p with year := v }
  | .month => { p with month := v }
  | .day => { p with day := v }
  | .hour => { p with hour := v }
  | .minute => { p with minute := v }
  | .second => { p with second := v }

/-- The regex alternatives of each directive as (digit count, lo, hi)
triples, in CPython's TimeRE order: a block of that many digit
characters whose value lies in [lo, hi].
%d is (3[01]|[12]\d|0[1-9]|[1-9]), %m is (1[0-2]|0[1-9]|[1-9]),
%Y is \d\d\d\d, %H is (2[0-3]|[0-1]\d|\d), %M and %S are ([0-5]\d|\d). -/
def fieldAlts : NumField → List (ℕ × ℕ × ℕ)
  | .day => [(2, 30, 31), (2, 10, 29), (2, 1, 9), (1, 1, 9)]
  | .month => [(2, 10, 12), (2, 1, 9), (1, 1, 9)]
  | .year => [(4, 0, 9999)]
  | .hour => [(2, 20, 23), (2, 0, 19), (1, 0, 9)]
  | .minute => [(2, 0, 59), (1, 0, 9)]
  | .second => [(2, 0, 59), (1, 0, 9)]

/-- Read exactly n decimal digit characters, big-endian, extending an
accumulator; fails when a non-digit or end of input intervenes. -/
def readDigitsAux (acc : ℕ) : ℕ → List Char → Option (ℕ × List Char)
  | 0, cs => some (acc, cs)
  | _ + 1, [] => none
  | n + 1, c :: cs =>
    if c.isDigit then readDigitsAux (10 * acc + digitVal c) n cs else none

/-- First successful application of f along a list (Python-style
try-in-order loops). -/
def firstSome {α β : Type} (f : α → Option β) : List α → Option β
  | [] => none
  | x :: xs =>
    match f x with
    | some r => some r
    | none => firstSome f xs

/-- Regex matching of a token list against a character list with full
backtracking across directive alternatives, fuelled so that the
function is structurally recursive (one token consumes one unit of
fuel; the wrapper below supplies enough).  The whole input must be
consumed, as strptime requires. -/
def matchToksF : ℕ → List Tok → List Char → PFields → Option PFields
  | 0, _, _, _ => none
  | _ + 1, [], [], p => some p
  | _ + 1, [], _ :: _, _ => none
  | _ + 1, .lit _ :: _, [], _ => none
  | n + 1, .lit c :: ts, c₂ :: cs, p =>
    if c₂ = c then matchToksF n ts cs p else none
  | n + 1, .num f :: ts, cs, p =>
    firstSome
      (fun a =>
        match readDigitsAux 0 a.1 cs with
        | some vr =>
          if a.2.1 ≤ vr.1 ∧ vr.1 ≤ a.2.2 then
            matchToksF n ts vr.2 (setField f vr.1 p)
          else none
        | none => none)
      (fieldAlts f)

/-- Match a full format against a character list (each token consumes
one unit of fuel and the terminal check consumes one more). -/
def matchToks (ts : List Tok) (cs : List Char) : Option PFields :=
  matchToksF (ts.length + 1) ts cs {}

def isLeapYear (y : ℕ) : Bool := (y % 4 = 0 && y % 100 ≠ 0) || y % 400 = 0

def daysInMonth (y m : ℕ) : ℕ :=
  if m = 2 then (if isLeapYear y then 29 else 28)
  else if m = 4 ∨ m = 6 ∨ m = 9 ∨ m = 11 then 30
  else 31

/-- The datetime constructor's validation of the date fields (the
directives already bound month, hour, minute and second to valid
ranges, so only year range and day-of-month can still fail). -/
def validDate (y m d : ℕ) : Bool :=
  1 ≤ y && y ≤ 9999 && 1 ≤ m && m ≤ 12 && 1 ≤ d && d ≤ daysInMonth y m

/-- datetime.strptime for one format: regex match, then construction of
the datetime, which validates the calendar date. -/
def pyStrptime (fmt : List Tok) (cs : List Char) : Option PFields :=
  match matchToks fmt cs with
  | some p => if validDate p.year p.month p.day then some p else none
  | none => none

/-- Decimal digit character of n % 10. -/
def decDigit (n : ℕ) : Char := Char.ofNat (48 + n % 10)

/-- Two-digit zero-padded decimal rendering (for %m / %d output). -/
def pad2 (n : ℕ) : List Char := [decDigit (n / 10), decDigit n]

/-- Four-digit zero-padded decimal rendering (for %Y output; every year
this development renders is at most 9999). -/
def pad4 (n : ℕ) : List Char :=
  [decDigit (n / 1000), decDigit (n / 100), decDigit (n / 10), decDigit n]

/-- Unpadded decimal rendering of a year at most 9999 (Python
f-string {year} formatting). -/
def yearChars (y : ℕ) : List Char :=
  if y < 10 then [decDigit y]
  else if y < 100 then pad2 y
  else if y < 1000 then [decDigit (y / 100), decDigit (y / 10), decDigit y]
  else pad4 y

/-- dt.strftime('%Y-%m-%d') on a validated date. -/
def isoOfDate (y m d : ℕ) : String :=
  String.mk (pad4 y ++ '-' :: (pad2 m ++ '-' :: pad2 d))

/-- The format strings of DataProcessor._parse_bank_date, tokenized:
'%d.%m.%Y', '%d-%m-%Y', '%d/%m/%Y', '%Y-%m-%d' in source order. -/
def fmtDMYdot : List Tok := [.num .day, .lit '.', .num .month, .lit '.', .num .year]
def fmtDMYdash : List Tok := [.num .day, .lit '-', .num .month, .lit '-', .num .year]
def fmtDMYslash : List Tok := [.num .day, .lit '/', .num .month, .lit '/', .num .year]
def fmtYMDdash : List Tok := [.num .year, .lit '-', .num .month, .lit '-', .num .day]

def bankDateFormats : List (List Tok) := [fmtDMYdot, fmtDMYdash, fmtDMYslash, fmtYMDdash]

/-- Time-of-day suffix ' %H:%M:%S'. -/
def hmsToks : List Tok :=
  [.lit ' ', .num .hour, .lit ':', .num .minute, .lit ':', .num .second]

/-- app.config.settings.DATE_FORMATS, tokenized, in source order:
'%Y-%m-%d', '%d.%m.%Y %H:%M:%S', '%d.%m.%Y', '%Y-%m-%d %H:%M:%S'. -/
def DATE_FORMATS : List (List Tok) :=
  [fmtYMDdash, fmtDMYdot ++ hmsToks, fmtDMYdot, fmtYMDdash ++ hmsToks]

/-- Python str.strip(): drop leading and trailing whitespace. -/
def pyStripChars (cs : List Char) : List Char :=
  ((cs.dropWhile Char.isWhitespace).reverse.dropWhile Char.isWhitespace).reverse

/-- One iteration of the format loop in _parse_bank_date: parse with
one format and render the result as ISO on success. -/
def fmtToIso (cs : List Char) (fmt : List Tok) : Option String :=
  match pyStrptime fmt cs with
  | some p => some (isoOfDate p.year p.month p.day)
  | none => none

/-- DataProcessor._parse_bank_date: NaN yields None; otherwise render
with str(), strip, keep the part before the first space (dropping any
time component), then try the four supported formats in order,
formatting the first successful parse as YYYY-MM-DD. -/
def parseBankDate (v : Cell) : Option String :=
  if pyIsNa v then none
  else
    let dateChars := (pyStripChars (cellStr v).toList).takeWhile (fun c => c ≠ ' ')
    firstSome (fmtToIso dateChars) bankDateFormats

/-! ### date_utils model -/

/-- The value found in a pandas date column cell, as
extract_month_from_date distinguishes its cases: missing, a
datetime/Timestamp (carrying a calendar date), a string, or a value of
any other type (whose type name the error message would render). -/
inductive DateInput where
  | na : DateInput
  | pyDatetime (y m d : ℕ) : DateInput
  | str (s : String) : DateInput
  | other (typeName : String) : DateInput
deriving DecidableEq

/-- Python f-string formatting {month:02d}-{year} (month zero-padded to
two digits, year unpadded). -/
def monthDashYear (m y : ℕ) : String :=
  String.mk (pad2 m ++ '-' :: yearChars y)

/-- app.core.utils.date_utils.extract_month_from_date: NaN maps to
None; a datetime maps to its "MM-YYYY"; a string is tried against
DATE_FORMATS in order and an unmatched string raises ValueError; any
other type raises ValueError. -/
def extractMonthFromDate (v : DateInput) : Except String (Option String) :=
  match v with
  | .na => .ok none
  | .pyDatetime y m _ => .ok (some (monthDashYear m y))
  | .str s =>
    match
      firstSome
        (fun fmt => (pyStrptime fmt s.toList).map (fun p => monthDashYear p.month p.year))
        DATE_FORMATS
    with
    | some r => .ok (some r)
    | none => .error ("Не вдалося розпізнати формат дати: " ++ s)
  | .other t => .error ("Непідтримуваний тип дати: " ++ t)

instance {ε α : Type} [DecidableEq ε] [DecidableEq α] : DecidableEq (Except ε α)
  | .error a, .error b =>
    if h : a = b then isTrue (by rw [h]) else isFalse (by intro hc; cases hc; exact h rfl)
  | .error _, .ok _ => isFalse (by intro hc; cases hc)
  | .ok _, .error _ => isFalse (by intro hc; cases hc)
  | .ok a, .ok b =>
    if h : a = b then isTrue (by rw [h]) else isFalse (by intro hc; cases hc; exact h rfl)

/-! ### Generic bank-statement row parser
(DataProcessor._parse_bank_payments_generic and its callers). -/

/-- Model of Python int() on a cell value: ints pass through, floats
truncate toward zero, strings parse as optionally signed decimal
integers after stripping whitespace, anything else (including NaN,
whose int() raises ValueError) fails. -/
def pyIntOfString (s : String) : Option Int :=
  let cs := pyStripChars s.toList
  let signed : Bool × List Char :=
    match cs with
    | '-' :: rest => (true, rest)
    | '+' :: rest => (false, rest)
    | _ => (false, cs)
  if signed.2 ≠ [] ∧ signed.2.all Char.isDigit then
    some (if signed.1 then -(natOfDigits signed.2 : Int) else (natOfDigits signed.2 : Int))
  else none

def pyIntOfCell : Cell → Option Int
  | .na => none
  | .int n => some n
  | .num q => some (Int.tdiv q.num q.den)
  | .str s => pyIntOfString s

/-- One row of a pandas DataFrame: an association list from column
name to cell value.  Series.get(key, default) is lookup with default. -/
abbrev Row := List (String × Cell)

def rowGet (r : Row) (k : String) : Option Cell :=
  (r.find? (fun kv => kv.1 = k)).map (fun kv => kv.2)

def rowGetD (r : Row) (k : String) (d : Cell) : Cell := (rowGet r k).getD d

/-- A payment tuple (company, counterparty, period, amount,
payment_date) as produced by the generic parser. -/
abbrev Payment := String × String × String × ℚ × Option String

/-- An acts-batch tuple (company, counterparty, period, amount); the
two trailing None fields of the Python tuple are elided. -/
abbrev ActTuple := String × String × String × ℚ

/-- The collaborator modules the processor imports whose sources are
outside the checked tree (DataNormalizer, extract_period_from_purpose,
DatabaseManager batch inserts).  The verified properties hold for
every choice of these functions, so they are parameters of the
embedding. -/
structure Env where
  normalizeCompanyCell : Cell → String
  normalizeCounterpartyCell : Cell → String
  extractPeriodFromPurpose : String → Option String → Option String
  savePaymentsBatch : List Payment → ℕ
  saveActsBatch : List ActTuple → ℕ

/-- DataNormalizer.normalize_company applied to an already-stringified
value. -/
def Env.normCompanyStr (e : Env) (s : String) : String := e.normalizeCompanyCell (.str s)

def Env.normCounterpartyStr (e : Env) (s : String) : String :=
  e.normalizeCounterpartyCell (.str s)

/-- One BANK_CONFIGS entry.  directionValue is only ever read when
directionField is set (the Python oschadbank dict carries no
direction_value key at all). -/
structure BankConfig where
  amountField : String
  directionField : Option String
  directionValue : Int
  counterpartyField : String
  companyField : Option String
  dateField : String
  purposeField : String
  companyFromHeader : Bool

/-- BANK_CONFIGS['ukrgasbank']. -/
def ukrgasbankConfig : BankConfig :=
  { amountField := "SUM_PD_NOM"
    directionField := some "DK"
    directionValue := 1
    counterpartyField := "NAME_KOR"
    companyField := some "NAME"
    dateField := "DATA_VYP"
    purposeField := "PURPOSE"
    companyFromHeader := false }

/-- BANK_CONFIGS['oschadbank'] (no direction field; the directionValue
slot is never read on this configuration). -/
def oschadbankConfig : BankConfig :=
  { amountField := "Кредит"
    directionField := none
    directionValue := 1
    counterpartyField := "Найменування кореспондента"
    companyField := none
    dateField := "Дата валютування"
    purposeField := "Призначення платежу"
    companyFromHeader := true }

/-- The direction check at the top of the per-row loop: with a truthy
configured direction field whose cell is present, a successful int()
conversion to a value different from the configured credit value skips
the row; a failed conversion leaves direction_value as None and does
not skip. -/
def directionSkip (cfg : BankConfig) (row : Row) : Bool :=
  match cfg.directionField with
  | none => false
  | some f =>
    if f = "" then false
    else
      let direction := rowGetD row f .na
      if pyIsNa direction then false
      else
        match pyIntOfCell direction with
        | none => false
        | some v => v ≠ cfg.directionValue

/-- Outcome of one iteration of the row loop. -/
inductive RowResult where
  | payment (p : Payment) : RowResult
  | skip : RowResult
  | skipNotGb : RowResult
deriving DecidableEq

def RowResult.isPayment : RowResult → Bool
  | .payment _ => true
  | _ => false

/-- The per-row loop body after the direction check: parse the amount
(non-positive amounts skip), derive the period from purpose and date
(a missing or empty period skips), resolve company and counterparty,
and keep only rows whose counterparty is the Guaranteed Buyer. -/
def classifyRowRest (cfg : BankConfig) (env : Env) (companyName : Option String)
    (row : Row) : RowResult :=
  let amount := parseBankAmount (rowGetD row cfg.amountField .na)
  if amount ≤ 0 then .skip
  else
    let purpose := cellStr (rowGetD row cfg.purposeField (.str ""))
    let paymentDate := parseBankDate (rowGetD row cfg.dateField .na)
    match env.extractPeriodFromPurpose purpose paymentDate with
    | none => .skip
    | some period =>
      if period = "" then .skip
      else
        let company :=
          if cfg.companyFromHeader then
            env.normCompanyStr
              (match companyName with
               | some s => if s = "" then "Не визначено" else s
               | none => "Не визначено")
          else
            env.normCompanyStr
              (cellStr (rowGetD row (cfg.companyField.getD "") (.str "Не визначено")))
        let counterparty :=
          env.normCounterpartyStr (cellStr (rowGetD row cfg.counterpartyField (.str "Не визначено")))
        if counterparty ≠ "ГАРАНТОВАНИЙ ПОКУПЕЦЬ" then .skipNotGb
        else .payment (company, counterparty, period, amount, paymentDate)

/-- One iteration of the row loop of _parse_bank_payments_generic. -/
def classifyRow (cfg : BankConfig) (env : Env) (companyName : Option String)
    (row : Row) : RowResult :=
  if directionSkip cfg row then .skip else classifyRowRest cfg env companyName row

/-- DataProcessor._parse_bank_payments_generic: fold the row loop,
collecting payments and the two skip counters (skipped, skipped_not_gb).
The per-row try/except never fires in this embedding because the
collaborator functions are total. -/
def parseBankPaymentsGeneric (cfg : BankConfig) (env : Env)
    (companyName : Option String) (rows : List Row) : List Payment × ℕ × ℕ :=
  rows.foldl
    (fun acc row =>
      match classifyRow cfg env companyName row with
      | .payment p => (acc.1 ++ [p], acc.2.1, acc.2.2)
      | .skip => (acc.1, acc.2.1 + 1, acc.2.2)
      | .skipNotGb => (acc.1, acc.2.1, acc.2.2 + 1))
    ([], 0, 0)

/-- DataProcessor._save_bank_payments: an empty payment list raises
ValueError; otherwise the batch insert runs and its count is returned. -/
def saveBankPayments (env : Env) (payments : List Payment) (bankName : String) :
    Except String ℕ :=
  if payments = [] then
    .error ("Не знайдено жодного вхідного платежу у виписці " ++ bankName ++
      ".\nПереконайтеся, що файл містить коректні дані\nта містить вхідні (кредитові) операції.")
  else .ok (env.savePaymentsBatch payments)

/-! ### Bank-statement Excel auto-detection
(process_bank_statement_excel and the two _try_process functions). -/

/-- The views an Excel bank-statement file presents to the processor:
its column names and rows when read with header row 0 (the Ukrgasbank
attempt) and with header row 3 (the Oschadbank attempt), and the first
raw cell (row 0, column 0) used for the Oschadbank company name, absent
when the raw frame is empty. -/
structure ExcelViews where
  cols0 : List String
  rows0 : List Row
  cols3 : List String
  rows3 : List Row
  rawFirstCell : Option Cell

/-- The Ukrgasbank column signature checked by _try_process_ukrgasbank. -/
def ukrColumns : List String :=
  ["NAME", "NAME_KOR", "PURPOSE", "SUM_PD_NOM", "DK", "DATA_VYP"]

/-- The Oschadbank column signature checked by _try_process_oschadbank. -/
def oschadColumns : List String :=
  ["Дебет", "Кредит", "Найменування кореспондента", "Призначення платежу", "Дата валютування"]

/-- Python set.issubset of the required columns in the sheet columns. -/
def columnsSubset (required cols : List String) : Bool :=
  required.all (fun c => cols.contains c)

/-- DataProcessor._extract_oschadbank_company: first raw cell, with any
', МФО ...' suffix removed, stripped; an empty raw frame yields the
placeholder. -/
def extractOschadbankCompany (rawFirstCell : Option Cell) : String :=
  match rawFirstCell with
  | none => "Не визначено"
  | some c =>
    let rawName := cellStr c
    let rawName :=
      if (rawName.splitOn ", МФО").length > 1 then (rawName.splitOn ", МФО").headD ""
      else rawName
    String.mk (pyStripChars rawName.toList)

/-- DataProcessor._try_process_ukrgasbank: None (format not detected)
when the required columns are missing, otherwise parse and save,
re-raising the ValueError of an empty result. -/
def tryProcessUkrgasbank (env : Env) (f : ExcelViews) : Except String (Option ℕ) :=
  if columnsSubset ukrColumns f.cols0 then
    let payments := (parseBankPaymentsGeneric ukrgasbankConfig env none f.rows0).1
    (saveBankPayments env payments "Укргазбанк").map some
  else .ok none

/-- DataProcessor._try_process_oschadbank: company from the raw header
cell, then the column check on the header-3 view, then parse and save. -/
def tryProcessOschadbank (env : Env) (f : ExcelViews) : Except String (Option ℕ) :=
  let companyName := extractOschadbankCompany f.rawFirstCell
  if columnsSubset oschadColumns f.cols3 then
    let payments := (parseBankPaymentsGeneric oschadbankConfig env (some companyName) f.rows3).1
    (saveBankPayments env payments "Ощадбанк").map some
  else .ok none

/-- DataProcessor.process_bank_statement_excel: try Ukrgasbank, then
Oschadbank; when neither format is detected raise the
format-not-recognized ValueError. -/
def processBankStatementExcel (env : Env) (f : ExcelViews) : Except String ℕ :=
  match tryProcessUkrgasbank env f with
  | .error e => .error e
  | .ok (some n) => .ok n
  | .ok none =>
    match tryProcessOschadbank env f with
    | .error e => .error e
    | .ok (some n) => .ok n
    | .ok none =>
      .error ("Не вдалося визначити формат банківської виписки.\n" ++
        "Підтримуються формати Ощадбанку (.xlsx) та Укргазбанку (.xls).")

/-! ### 1C acts processing (process_1c_acts). -/

/-- Apply an Except-valued function along a list, stopping at the
first error — the behaviour of Series.apply when the applied function
raises on some cell. -/
def mapExcept {α β ε : Type} (f : α → Except ε β) : List α → Except ε (List β)
  | [] => .ok []
  | x :: xs =>
    match f x with
    | .error e => .error e
    | .ok b =>
      match mapExcept f xs with
      | .error e => .error e
      | .ok bs => .ok (b :: bs)

/-- pd.to_numeric with errors='coerce' on one cell: numbers pass
through, numeric strings convert, everything else coerces to NaN. -/
def toNumeric : Cell → Option ℚ
  | .na => none
  | .int n => some (mkRat n 1)
  | .num q => some q
  | .str s => pyFloatOfChars (pyStripChars s.toList)

/-- One row of a 1C acts sheet, restricted to the four required
columns Дата / Сумма / Контрагент / Организация. -/
structure ActsRow where
  data : DateInput
  summa : Cell
  kontragent : Cell
  organizaciya : Cell

/-- The acts_batch list comprehension of process_1c_acts: one tuple
per row whose normalized counterparty is the Guaranteed Buyer, built
from the already-computed period column. -/
def act1cBatch (env : Env) (withPeriod : List (ActsRow × Option String)) : List ActTuple :=
  withPeriod.filterMap
    (fun rp =>
      let cp := env.normalizeCounterpartyCell rp.1.kontragent
      if cp = "ГАРАНТОВАНИЙ ПОКУПЕЦЬ" then
        some (env.normalizeCompanyCell rp.1.organizaciya, cp, rp.2.getD "",
          (toNumeric rp.1.summa).getD 0)
      else none)

/-- DataProcessor.process_1c_acts after the required-column check: the
period column is computed by applying extract_month_from_date (whose
ValueError on an unsupported string aborts the whole call), amounts are
coerced, rows with a missing period or amount raise the invalid-rows
ValueError, and the Guaranteed-Buyer tuples are batch-inserted. -/
def process1cActs (env : Env) (rows : List ActsRow) : Except String ℕ :=
  match mapExcept (fun r => extractMonthFromDate r.data) rows with
  | .error e => .error e
  | .ok periods =>
    let withPeriod := rows.zip periods
    if withPeriod.any (fun rp => rp.2.isNone || (toNumeric rp.1.summa).isNone) then
      .error ("Деякі рядки мають некоректні значення для дати або суми")
    else
      .ok (env.saveActsBatch (act1cBatch env withPeriod))

/-! ### Act PDF processing (process_act_pdf). -/

/-- The dictionary returned by ActExtractor.extract_act_data; every
field the processor reads is optional at this boundary. -/
structure ActData where
  amount : Option ℚ := none
  period : Option String := none
  executor : Option String := none
  customer : Option String := none
  energyVolume : Option ℚ := none
  costWithoutVat : Option ℚ := none
deriving DecidableEq

/-- The argument tuple handed to DatabaseManager.save_act by
process_act_pdf. -/
structure SaveActCall where
  company : String
  counterparty : String
  period : String
  amount : ℚ
  energyVolume : Option ℚ
  costWithoutVat : Option ℚ
  priceWithoutVat : Option ℚ
  pdfPath : String
deriving DecidableEq

/-- DataProcessor.process_act_pdf downstream of extraction: validate
amount ('if not amount or amount <= 0') and period ('if not period'),
normalize the parties, compute price_without_vat under the Python
truthiness condition on cost and volume, and produce the save_act
call.  An InvalidPDFDataError is re-raised to the caller as a
ValueError carrying the same message; the error paths produce no
save_act call. -/
def processActPdf (env : Env) (absPdfPath : String) (act : ActData) :
    Except String SaveActCall :=
  if act.amount = none ∨ act.amount.getD 0 ≤ 0 then
    .error ("Некоректна сума акту")
  else if act.period = none ∨ act.period = some "" then
    .error ("Не вдалося визначити період акту")
  else
    let executor := env.normCompanyStr (act.executor.getD "Не визначено")
    let customer := env.normCounterpartyStr (act.customer.getD "Не визначено")
    let price : Option ℚ :=
      if act.costWithoutVat ≠ none ∧ act.costWithoutVat ≠ some 0 ∧
          act.energyVolume ≠ none ∧ act.energyVolume ≠ some 0 then
        some (act.costWithoutVat.getD 0 / act.energyVolume.getD 0)
      else none
    .ok
      { company := executor
        counterparty := customer
        period := act.period.getD ""
        amount := act.amount.getD 0
        energyVolume := act.energyVolume
        costWithoutVat := act.costWithoutVat
        priceWithoutVat := price
        pdfPath := absPdfPath }

/-- The price_without_vat formula as the specification states it:
computed exactly when cost_without_vat and energy_volume are present
and the volume is non-zero; otherwise omitted.  Stated from the spec's
words, for comparison against the code's behaviour. -/
def specPriceWithoutVat (act : ActData) : Option ℚ :=
  if act.costWithoutVat ≠ none ∧ act.energyVolume ≠ none ∧ act.energyVolume ≠ some 0 then
    some (act.costWithoutVat.getD 0 / act.energyVolume.getD 0)
  else none

/-! ### Duplicate detection in the store
(DatabaseManager.check_act_exists / save_act). -/

/-- The columns of one stored acts row that duplicate detection reads;
the payload columns are elided. -/
structure ActDbRow where
  id : ℕ
  pdfPath : Option String
  fileHash : Option String
deriving DecidableEq

/-- The filesystem operations the store calls: calculate_file_hash
(total: any internal failure yields (None, None)), Path.resolve (None
models a raised exception), and unicodedata NFC normalization. -/
structure FsEnv where
  hashOf : String → Option String × Option ℕ
  resolve : String → Option String
  nfc : String → String

/-- The hash check_act_exists works with: the supplied one or, failing
that, the freshly computed one. -/
def effectiveHash (fs : FsEnv) (pdfPath : String) (fileHash : Option String) :
    Option String :=
  match fileHash with
  | some hh => some hh
  | none => (fs.hashOf pdfPath).1

/-- The primary lookup of check_act_exists: with a truthy hash, the id
of the first stored act carrying the same content hash. -/
def hashLookup (db : List ActDbRow) (h : Option String) : Option ℕ :=
  match h with
  | some hh =>
    if hh = "" then none
    else (db.find? (fun a => a.fileHash = some hh)).map (fun a => a.id)
  | none => none

/-- The fallback lookup of check_act_exists: the id of the first stored
act with the same resolved absolute path; a resolution failure is
swallowed (logged and treated as no match). -/
def pathLookup (fs : FsEnv) (db : List ActDbRow) (pdfPath : String) : Option ℕ :=
  match fs.resolve pdfPath with
  | some ap => (db.find? (fun a => a.pdfPath = some ap)).map (fun a => a.id)
  | none => none

/-- DatabaseManager.check_act_exists: an empty path finds nothing; a
hash match answers immediately; otherwise fall back to the
path comparison. -/
def checkActExists (fs : FsEnv) (db : List ActDbRow) (pdfPath : String)
    (fileHash : Option String) : Option ℕ :=
  if pdfPath = "" then none
  else
    match hashLookup db (effectiveHash fs pdfPath fileHash) with
    | some i => some i
    | none => pathLookup fs db pdfPath

/-- sqlite AUTOINCREMENT id for the inserted row. -/
def freshId (db : List ActDbRow) : ℕ := (db.map (fun a => a.id)).foldr max 0 + 1

/-- Append the new acts row and report its id (cursor.lastrowid). -/
def insertActRow (db : List ActDbRow) (path hash : Option String) :
    List ActDbRow × ℕ :=
  (db ++ [{ id := freshId db, pdfPath := path, fileHash := hash }], freshId db)

/-- DatabaseManager.save_act restricted to what duplicate detection
observes.  validationError is the outcome of the DataValidator /
DataNormalizer preamble (whose sources are outside the checked tree):
some message models a raised ValueError.  With a truthy pdf_path the
path is resolved (a failure raises), NFC-normalized and hashed, and a
truthy duplicate id from check_act_exists raises instead of inserting,
leaving the store unchanged. -/
def saveActDb (fs : FsEnv) (db : List ActDbRow) (validationError : Option String)
    (pdfPath : Option String) : Except String (List ActDbRow × ℕ) :=
  match validationError with
  | some e => .error e
  | none =>
    match pdfPath with
    | none => .ok (insertActRow db none none)
    | some p =>
      if p = "" then .ok (insertActRow db (some p) none)
      else
        match fs.resolve p with
        | none => .error ("Некоректний шлях до PDF файлу: " ++ p)
        | some rp0 =>
          let rp := fs.nfc rp0
          let h := (fs.hashOf rp).1
          match checkActExists fs db rp h with
          | some i =>
            if i = 0 then .ok (insertActRow db (some rp) h)
            else .error ("Цей PDF файл вже було завантажено раніше (ID: " ++ toString i ++ ")")
          | none => .ok (insertActRow db (some rp) h)

/-! ### Concrete instantiations used by witnesses and counterexamples. -/

/-- A concrete collaborator environment: normalization by str(), a
constant period extractor, batch inserts reporting the batch length. -/
def envW : Env :=
  { normalizeCompanyCell := cellStr
    normalizeCounterpartyCell := cellStr
    extractPeriodFromPurpose := fun _ _ => some ("10-2024")
    savePaymentsBatch := List.length
    saveActsBatch := List.length }

/-- A concrete filesystem: every file hashes to "h1" with size 1,
resolution is the identity, NFC is the identity. -/
def fsW : FsEnv :=
  { hashOf := fun _ => (some ("h1"), some 1)
    resolve := fun s => some s
    nfc := fun s => s }

/-- A store holding one act imported from path "/a" with hash "h1". -/
def dbW : List ActDbRow := [{ id := 1, pdfPath := some ("/a"), fileHash := some ("h1") }]


/-! ### Fixtures and projections used by the theorems below. -/

def actW : ActData := { amount := some (mkRat 5 1), period := some ("10-2024") }

def callW : SaveActCall :=
  { company := "Не визначено", counterparty := "Не визначено", period := "10-2024",
    amount := mkRat 5 1, energyVolume := none, costWithoutVat := none,
    priceWithoutVat := none, pdfPath := "a.pdf" }

def actC8 : ActData :=
  { amount := some (mkRat 100 1), period := some ("10-2024"),
    costWithoutVat := some (mkRat 0 1), energyVolume := some (mkRat 100 1) }

def rowC9 : Row :=
  [("DK", .str "abc"), ("SUM_PD_NOM", .str "100"), ("PURPOSE", .str "x"),
    ("DATA_VYP", .str "15.10.2024"), ("NAME", .str "K"),
    ("NAME_KOR", .str "ГАРАНТОВАНИЙ ПОКУПЕЦЬ")]

/-- What one row contributes to the payments list. -/
def rowPayment (cfg : BankConfig) (env : Env) (cn : Option String) (r : Row) :
    Option Payment :=
  match classifyRow cfg env cn r with
  | .payment p => some p
  | _ => none

def envN : Env := { envW with extractPeriodFromPurpose := fun _ _ => none }

def rowDir2 : Row := [("DK", .int 2)]

def pC9 : Payment := ("K", "ГАРАНТОВАНИЙ ПОКУПЕЦЬ", "10-2024", mkRat 100 1, some ("2024-10-15"))

def rowA : ActsRow :=
  { data := .pyDatetime 2024 10 15, summa := .num (mkRat 1 1),
    kontragent := .str "ГАРАНТОВАНИЙ ПОКУПЕЦЬ", organizaciya := .str "Org" }

def rowT : ActsRow :=
  { data := .str "15-10-2024", summa := .num (mkRat 1 1),
    kontragent := .str "x", organizaciya := .str "y" }

def fEmpty : ExcelViews :=
  { cols0 := [], rows0 := [], cols3 := [], rows3 := [], rawFirstCell := none }

def aW : ActDbRow := { id := 1, pdfPath := some ("/a"), fileHash := some ("h1") }

/-- The characters of a rendered date: decimal digits and one of the
three separators, none of which is whitespace or a space. -/
def dateSeps : List Char := ['.', '-', '/']

end Deb

namespace Deb

theorem normalizeAmountChars_idem (cs : List Char) :
    normalizeAmountChars (normalizeAmountChars cs) = normalizeAmountChars cs := by
  induction cs with
  | nil => rfl
  | cons c t ih =>
    by_cases h : c = ' ' ∨ c = nbsp
    · simp [normalizeAmountChars, h, ih]
    · by_cases hc : c = ','
      · subst hc
        rw [show normalizeAmountChars (',' :: t) = '.' :: normalizeAmountChars t by
              simp [normalizeAmountChars, h, nbsp]]
        rw [show ∀ l, normalizeAmountChars ('.' :: l) = '.' :: normalizeAmountChars l by
              intro l
              rw [normalizeAmountChars]
              rw [if_neg (by decide), if_neg (by decide)]]
        rw [ih]
      · simp [normalizeAmountChars, h, hc, ih]

theorem parseBankAmountStr_normalized (s : String) :
    parseBankAmountStr (String.mk (normalizeAmountChars s.toList)) = parseBankAmountStr s := by
  unfold parseBankAmountStr
  rw [show (String.mk (normalizeAmountChars s.toList)).toList = normalizeAmountChars s.toList
        from rfl,
    normalizeAmountChars_idem]

/-- C3: amount parsing is representation independent: "12 345,67",
"12345.67" and "12 345.67" (and the non-breaking-space variant) all
parse to 12345.67 under _parse_bank_amount, and in general deleting
spaces and non-breaking spaces and replacing a comma with a dot before
float conversion does not change the parsed amount. -/
theorem amount_parsing_representation_independent :
    parseBankAmount (.str "12 345,67") = 1234567 / 100 ∧
    parseBankAmount (.str "12345.67") = 1234567 / 100 ∧
    parseBankAmount (.str "12 345.67") = 1234567 / 100 ∧
    parseBankAmount (.str "12 345,67") = 1234567 / 100 ∧
    ∀ s : String, parseBankAmountStr (String.mk (normalizeAmountChars s.toList)) =
      parseBankAmountStr s := by
  refine ⟨?_, ?_, ?_, ?_, parseBankAmountStr_normalized⟩ <;>
    · rw [show parseBankAmount _ = mkRat 1234567 100 from by decide]
      norm_num

/-- C2: process_act_pdf never persists an act record lacking a positive
amount or a period: whenever the extracted act data has a missing or
non-positive amount or a missing period, it raises (as a ValueError)
before save_act is called and no record is saved; conversely a produced
save_act call always carries a positive amount and a non-empty period
equal to the extracted ones. -/
theorem act_requires_amount_and_period :
    (∀ (env : Env) (path : String) (act : ActData),
      act.amount = none ∨ (∃ a, act.amount = some a ∧ a ≤ 0) ∨ act.period = none →
      ∃ e, processActPdf env path act = .error e) ∧
    (∀ (env : Env) (path : String) (act : ActData) (call : SaveActCall),
      processActPdf env path act = .ok call →
      act.amount = some call.amount ∧ 0 < call.amount ∧
      act.period = some call.period ∧ call.period ≠ "") := by
  constructor
  · intro env path act h
    unfold processActPdf
    by_cases h1 : act.amount = none ∨ act.amount.getD 0 ≤ 0
    · exact ⟨_, by rw [if_pos h1]⟩
    · have h2 : act.period = none ∨ act.period = some "" := by
        rcases h with h | ⟨a, ha, hle⟩ | h
        · exact absurd (Or.inl h) h1
        · exact absurd (Or.inr (by rw [ha]; exact hle)) h1
        · exact Or.inl h
      exact ⟨_, by rw [if_neg h1, if_pos h2]⟩
  · intro env path act call h
    unfold processActPdf at h
    split_ifs at h with h1 h2
    all_goals try simp at h
    all_goals
      push_neg at h1 h2
      obtain ⟨a, ha⟩ := Option.ne_none_iff_exists'.mp h1.1
      obtain ⟨p, hp⟩ := Option.ne_none_iff_exists'.mp h2.1
      have hlt : 0 < a := by
        have := h1.2
        rw [ha] at this
        simpa using lt_of_not_le (by simpa using this)
      have hpne : p ≠ "" := by
        have := h2.2
        rw [hp] at this
        simpa using this
      subst h
      simp [ha, hp, hlt, hpne]

theorem act_requires_amount_and_period_witness :
    (∃ e, processActPdf envW ("a.pdf") { amount := none } = .error e) ∧
    (actW.amount = some callW.amount ∧ 0 < callW.amount ∧
      actW.period = some callW.period ∧ callW.period ≠ "") :=
  ⟨act_requires_amount_and_period.1 envW ("a.pdf") { amount := none } (Or.inl rfl),
   act_requires_amount_and_period.2 envW ("a.pdf") actW callW (by decide)⟩

/-- C8 counterexample: extracted act data with cost_without_vat = 0 and
energy_volume = 100 has both fields present and a non-zero volume, so
the claim demands price_without_vat = 0 / 100; the code instead passes
None to save_act (specPriceWithoutVat states the claimed formula). -/
theorem price_without_vat_counterexample :
    actC8.costWithoutVat ≠ none ∧ actC8.energyVolume ≠ none ∧
    actC8.energyVolume ≠ some 0 ∧ specPriceWithoutVat actC8 = some 0 ∧
    (∃ call, processActPdf envW ("a.pdf") actC8 = .ok call ∧ call.priceWithoutVat = none) := by
  refine ⟨by decide, by decide, by decide, ?_, ⟨_, rfl, rfl⟩⟩
  have h0 : (mkRat 0 1 : ℚ) = 0 := by norm_num [mkRat, Rat.normalize]
  have h100 : (mkRat 100 1 : ℚ) = 100 := by norm_num [mkRat, Rat.normalize]
  have hs : specPriceWithoutVat actC8 = some ((mkRat 0 1 : ℚ) / mkRat 100 1) := rfl
  rw [hs, h0, h100]
  norm_num

/-- C8 amended: price_without_vat equals cost_without_vat /
energy_volume exactly when cost_without_vat is present and non-zero AND
energy_volume is present and non-zero (Python truthiness of both); in
every other case process_act_pdf passes price_without_vat = None. -/
theorem price_without_vat_truthiness (env : Env) (path : String) (act : ActData)
    (call : SaveActCall) (h : processActPdf env path act = .ok call) :
    call.priceWithoutVat =
      if act.costWithoutVat ≠ none ∧ act.costWithoutVat ≠ some 0 ∧
          act.energyVolume ≠ none ∧ act.energyVolume ≠ some 0
      then some (act.costWithoutVat.getD 0 / act.energyVolume.getD 0)
      else none := by
  unfold processActPdf at h
  split_ifs at h with h1 h2 h3
  all_goals try simp at h
  · subst h
    rw [if_pos h3]
  · subst h
    rw [if_neg h3]

theorem price_without_vat_truthiness_witness :
    callW.priceWithoutVat =
      if actW.costWithoutVat ≠ none ∧ actW.costWithoutVat ≠ some 0 ∧
          actW.energyVolume ≠ none ∧ actW.energyVolume ≠ some 0
      then some (actW.costWithoutVat.getD 0 / actW.energyVolume.getD 0)
      else none :=
  price_without_vat_truthiness envW ("a.pdf") actW callW (by decide)

/-- C9 counterexample: a Ukrgasbank row whose DK cell holds the
non-numeric string "abc" (present but not int-convertible) is processed
into a payment record, not skipped. -/
theorem malformed_direction_counterexample :
    pyIsNa (rowGetD rowC9 "DK" .na) = false ∧
    pyIntOfCell (rowGetD rowC9 "DK" .na) = none ∧
    RowResult.isPayment (classifyRow ukrgasbankConfig envW none rowC9) = true ∧
    classifyRow ukrgasbankConfig envW none rowC9 ≠ .skip := by decide

theorem pyIsNa_eq_false_of_pyIntOfCell {c : Cell} {v : Int}
    (h : pyIntOfCell c = some v) : pyIsNa c = false := by
  cases c <;> simp_all [pyIntOfCell, pyIsNa]

theorem directionSkip_eq_true {cfg : BankConfig} {row : Row} {f : String} {v : Int}
    (hf : cfg.directionField = some f) (hne : f ≠ "")
    (hint : pyIntOfCell (rowGetD row f .na) = some v)
    (hv : v ≠ cfg.directionValue) : directionSkip cfg row = true := by
  simp [directionSkip, hf, hne, pyIsNa_eq_false_of_pyIntOfCell hint, hint, hv]

theorem directionSkip_eq_false_of_malformed {cfg : BankConfig} {row : Row} {f : String}
    (hf : cfg.directionField = some f) (hne : f ≠ "")
    (hint : pyIntOfCell (rowGetD row f .na) = none) : directionSkip cfg row = false := by
  by_cases hna : pyIsNa (rowGetD row f .na) <;> simp [directionSkip, hf, hne, hna, hint]

/-- C9 amended: a direction cell that is present but not convertible to
the configured integer code is treated as indeterminate: the row
proceeds to the remaining checks exactly as if the direction check were
absent; only a successfully converted direction different from the
configured credit value skips the row. -/
theorem malformed_direction_proceeds :
    (∀ (cfg : BankConfig) (env : Env) (cn : Option String) (row : Row) (f : String),
      cfg.directionField = some f → f ≠ "" →
      pyIntOfCell (rowGetD row f .na) = none →
      classifyRow cfg env cn row = classifyRowRest cfg env cn row) ∧
    (∀ (cfg : BankConfig) (env : Env) (cn : Option String) (row : Row) (f : String) (v : Int),
      cfg.directionField = some f → f ≠ "" →
      pyIntOfCell (rowGetD row f .na) = some v → v ≠ cfg.directionValue →
      classifyRow cfg env cn row = .skip) := by
  constructor
  · intro cfg env cn row f hf hne hint
    simp [classifyRow, directionSkip_eq_false_of_malformed hf hne hint]
  · intro cfg env cn row f v hf hne hint hv
    simp [classifyRow, directionSkip_eq_true hf hne hint hv]

theorem malformed_direction_proceeds_witness :
    classifyRow ukrgasbankConfig envW none rowC9 =
      classifyRowRest ukrgasbankConfig envW none rowC9 :=
  malformed_direction_proceeds.1 ukrgasbankConfig envW none rowC9 ("DK")
    rfl (by decide) (by decide)

theorem parseBankPaymentsGeneric_foldl (cfg : BankConfig) (env : Env)
    (cn : Option String) (rows : List Row) (acc : List Payment × ℕ × ℕ) :
    rows.foldl
      (fun acc row =>
        match classifyRow cfg env cn row with
        | .payment p => (acc.1 ++ [p], acc.2.1, acc.2.2)
        | .skip => (acc.1, acc.2.1 + 1, acc.2.2)
        | .skipNotGb => (acc.1, acc.2.1, acc.2.2 + 1)) acc =
    (acc.1 ++ rows.filterMap (rowPayment cfg env cn),
      acc.2.1 + rows.countP (fun r => classifyRow cfg env cn r = .skip),
      acc.2.2 + rows.countP (fun r => classifyRow cfg env cn r = .skipNotGb)) := by
  induction rows generalizing acc with
  | nil => simp
  | cons r rs ih =>
    rw [List.foldl_cons]
    cases hc : classifyRow cfg env cn r with
    | payment p =>
      rw [ih]
      simp [rowPayment, hc, List.countP_cons]
    | skip =>
      rw [ih]
      simp [rowPayment, hc, List.countP_cons]
      omega
    | skipNotGb =>
      rw [ih]
      simp [rowPayment, hc, List.countP_cons]
      omega

theorem parseBankPaymentsGeneric_eq (cfg : BankConfig) (env : Env)
    (cn : Option String) (rows : List Row) :
    parseBankPaymentsGeneric cfg env cn rows =
      (rows.filterMap (rowPayment cfg env cn),
        rows.countP (fun r => classifyRow cfg env cn r = .skip),
        rows.countP (fun r => classifyRow cfg env cn r = .skipNotGb)) := by
  unfold parseBankPaymentsGeneric
  rw [parseBankPaymentsGeneric_foldl]
  simp

theorem classifyRowRest_payment_counterparty {cfg : BankConfig} {env : Env}
    {cn : Option String} {r : Row} {p : Payment}
    (h : classifyRowRest cfg env cn r = .payment p) :
    p.2.1 = env.normCounterpartyStr
        (cellStr (rowGetD r cfg.counterpartyField (.str "Не визначено"))) ∧
    p.2.1 = "ГАРАНТОВАНИЙ ПОКУПЕЦЬ" := by
  simp only [classifyRowRest] at h
  by_cases h1 : parseBankAmount (rowGetD r cfg.amountField .na) ≤ 0
  · simp [h1] at h
  · simp only [if_neg h1] at h
    rcases hper : env.extractPeriodFromPurpose (cellStr (rowGetD r cfg.purposeField (.str "")))
        (parseBankDate (rowGetD r cfg.dateField .na)) with _ | period
    · simp [hper] at h
    · simp only [hper] at h
      by_cases h2 : period = ""
      · simp [h2] at h
      · simp only [if_neg h2] at h
        by_cases h3 : env.normCounterpartyStr
            (cellStr (rowGetD r cfg.counterpartyField (.str "Не визначено"))) ≠
            "ГАРАНТОВАНИЙ ПОКУПЕЦЬ"
        · simp [h3] at h
        · simp only [if_neg h3] at h
          rw [RowResult.payment.injEq] at h
          subst h
          exact ⟨rfl, not_ne_iff.mp h3⟩

theorem classifyRow_payment_counterparty {cfg : BankConfig} {env : Env}
    {cn : Option String} {r : Row} {p : Payment}
    (h : classifyRow cfg env cn r = .payment p) :
    p.2.1 = env.normCounterpartyStr
        (cellStr (rowGetD r cfg.counterpartyField (.str "Не визначено"))) ∧
    p.2.1 = "ГАРАНТОВАНИЙ ПОКУПЕЦЬ" := by
  unfold classifyRow at h
  split at h
  · exact absurd h (by simp)
  · exact classifyRowRest_payment_counterparty h

theorem classifyRow_ne_payment_of_not_gb {cfg : BankConfig} {env : Env}
    {cn : Option String} {r : Row}
    (hgb : env.normCounterpartyStr
        (cellStr (rowGetD r cfg.counterpartyField (.str "Не визначено"))) ≠
      "ГАРАНТОВАНИЙ ПОКУПЕЦЬ") :
    ∀ p, classifyRow cfg env cn r ≠ .payment p := by
  intro p h
  have hp := classifyRow_payment_counterparty h
  rw [hp.1] at hp
  exact hgb hp.2

/-- C1: a bank-statement row with a non-credit direction flag, a
non-positive parsed amount, or a purpose/date from which no period can
be derived is skipped by _parse_bank_payments_generic (counted in the
skip counter, the payments list collecting exactly the payment rows)
without raising; and _save_bank_payments raises a ValueError if and
only if the final list of parsed payments is empty. -/
theorem bank_row_skip_and_empty_check :
    (∀ (cfg : BankConfig) (env : Env) (cn : Option String) (row : Row) (f : String) (v : Int),
      cfg.directionField = some f → f ≠ "" →
      pyIntOfCell (rowGetD row f .na) = some v → v ≠ cfg.directionValue →
      classifyRow cfg env cn row = .skip) ∧
    (∀ (cfg : BankConfig) (env : Env) (cn : Option String) (row : Row),
      parseBankAmount (rowGetD row cfg.amountField .na) ≤ 0 →
      classifyRow cfg env cn row = .skip) ∧
    (∀ (cfg : BankConfig) (env : Env) (cn : Option String) (row : Row),
      (env.extractPeriodFromPurpose (cellStr (rowGetD row cfg.purposeField (.str "")))
          (parseBankDate (rowGetD row cfg.dateField .na)) = none ∨
        env.extractPeriodFromPurpose (cellStr (rowGetD row cfg.purposeField (.str "")))
          (parseBankDate (rowGetD row cfg.dateField .na)) = some "") →
      classifyRow cfg env cn row = .skip) ∧
    (∀ (cfg : BankConfig) (env : Env) (cn : Option String) (rows : List Row),
      (parseBankPaymentsGeneric cfg env cn rows).2.1 =
        rows.countP (fun r => classifyRow cfg env cn r = .skip) ∧
      (parseBankPaymentsGeneric cfg env cn rows).1 =
        rows.filterMap (rowPayment cfg env cn)) ∧
    (∀ (env : Env) (payments : List Payment) (bankName : String),
      (∃ e, saveBankPayments env payments bankName = .error e) ↔ payments = []) := by
  refine ⟨?_, ?_, ?_, ?_, ?_⟩
  · intro cfg env cn row f v hf hne hint hv
    simp [classifyRow, directionSkip_eq_true hf hne hint hv]
  · intro cfg env cn row h1
    unfold classifyRow
    split
    · rfl
    · simp only [classifyRowRest]
      rw [if_pos h1]
  · intro cfg env cn row hper
    unfold classifyRow
    split
    · rfl
    · simp only [classifyRowRest]
      by_cases h1 : parseBankAmount (rowGetD row cfg.amountField .na) ≤ 0
      · rw [if_pos h1]
      · rw [if_neg h1]
        rcases hper with hper | hper <;> simp [hper]
  · intro cfg env cn rows
    rw [parseBankPaymentsGeneric_eq]
    exact ⟨rfl, rfl⟩
  · intro env payments bankName
    unfold saveBankPayments
    constructor
    · intro ⟨e, he⟩
      by_contra hne
      rw [if_neg hne] at he
      exact Except.noConfusion he
    · intro h
      rw [if_pos h]
      exact ⟨_, rfl⟩

theorem bank_row_skip_and_empty_check_witness :
    classifyRow ukrgasbankConfig envW none rowDir2 = .skip ∧
    classifyRow ukrgasbankConfig envW none [] = .skip ∧
    classifyRow ukrgasbankConfig envN none rowC9 = .skip ∧
    ((∃ e, saveBankPayments envW [] ("Укргазбанк") = .error e) ↔ ([] : List Payment) = []) :=
  ⟨bank_row_skip_and_empty_check.1 ukrgasbankConfig envW none rowDir2 ("DK") 2
      rfl (by decide) (by decide) (by decide),
    bank_row_skip_and_empty_check.2.1 ukrgasbankConfig envW none [] (by decide),
    bank_row_skip_and_empty_check.2.2.1 ukrgasbankConfig envN none rowC9 (Or.inl rfl),
    bank_row_skip_and_empty_check.2.2.2.2 envW [] ("Укргазбанк")⟩

theorem mapExcept_ok_of_forall {α β ε : Type} (f : α → Except ε β) (xs : List α)
    (h : ∀ x ∈ xs, ∃ b, f x = .ok b) :
    ∃ ys, mapExcept f xs = .ok ys ∧ List.Forall₂ (fun x y => f x = .ok y) xs ys := by
  induction xs with
  | nil => exact ⟨[], rfl, List.Forall₂.nil⟩
  | cons x xs ih =>
    obtain ⟨b, hb⟩ := h x (List.mem_cons_self x xs)
    obtain ⟨ys, hys, hall⟩ := ih (fun a ha => h a (List.mem_cons_of_mem x ha))
    exact ⟨b :: ys, by simp [mapExcept, hb, hys], List.Forall₂.cons hb hall⟩

theorem length_filterMap_add_countP {α β : Type} (f : α → Option β) (l : List α) :
    (l.filterMap f).length + l.countP (fun a => (f a).isNone) = l.length := by
  induction l with
  | nil => rfl
  | cons a l ih =>
    rw [List.filterMap_cons, List.countP_cons]
    cases hf : f a <;> simp [hf] <;> omega

/-- C5: every payment tuple returned by _parse_bank_payments_generic,
and every act tuple batched by process_1c_acts, has counterparty
exactly "ГАРАНТОВАНИЙ ПОКУПЕЦЬ"; rows with any other counterparty are
counted as skipped and never appear in the result, and their presence
alone never causes an error. -/
theorem guaranteed_buyer_only :
    (∀ (cfg : BankConfig) (env : Env) (cn : Option String) (rows : List Row)
        (p : Payment), p ∈ (parseBankPaymentsGeneric cfg env cn rows).1 →
      p.2.1 = "ГАРАНТОВАНИЙ ПОКУПЕЦЬ") ∧
    (∀ (cfg : BankConfig) (env : Env) (cn : Option String) (row : Row),
      env.normCounterpartyStr
          (cellStr (rowGetD row cfg.counterpartyField (.str "Не визначено"))) ≠
        "ГАРАНТОВАНИЙ ПОКУПЕЦЬ" →
      ∀ p, classifyRow cfg env cn row ≠ .payment p) ∧
    (∀ (cfg : BankConfig) (env : Env) (cn : Option String) (rows : List Row),
      (parseBankPaymentsGeneric cfg env cn rows).2.2 =
        rows.countP (fun r => classifyRow cfg env cn r = .skipNotGb)) ∧
    (∀ (env : Env) (withPeriod : List (ActsRow × Option String)) (t : ActTuple),
      t ∈ act1cBatch env withPeriod → t.2.1 = "ГАРАНТОВАНИЙ ПОКУПЕЦЬ") ∧
    (∀ (env : Env) (withPeriod : List (ActsRow × Option String)),
      (act1cBatch env withPeriod).length +
        withPeriod.countP
          (fun rp => env.normalizeCounterpartyCell rp.1.kontragent ≠ "ГАРАНТОВАНИЙ ПОКУПЕЦЬ") =
        withPeriod.length) ∧
    (∀ (env : Env) (rows : List ActsRow),
      (∀ r ∈ rows, (∃ p, extractMonthFromDate r.data = .ok (some p)) ∧
        toNumeric r.summa ≠ none) →
      ∃ n, process1cActs env rows = .ok n) := by
  refine ⟨?_, ?_, ?_, ?_, ?_, ?_⟩
  · intro cfg env cn rows p hp
    rw [parseBankPaymentsGeneric_eq] at hp
    obtain ⟨r, _, hr⟩ := List.mem_filterMap.mp hp
    unfold rowPayment at hr
    split at hr
    · cases hr
      exact (classifyRow_payment_counterparty (by assumption)).2
    · exact Option.noConfusion hr
  · exact fun cfg env cn row h => classifyRow_ne_payment_of_not_gb h
  · intro cfg env cn rows
    rw [parseBankPaymentsGeneric_eq]
  · intro env withPeriod t ht
    obtain ⟨rp, _, hrp⟩ := List.mem_filterMap.mp ht
    by_cases hgb : env.normalizeCounterpartyCell rp.1.kontragent = "ГАРАНТОВАНИЙ ПОКУПЕЦЬ"
    · simp only [hgb, if_true] at hrp
      rw [Option.some.injEq] at hrp
      subst hrp
      rfl
    · simp [hgb] at hrp
  · intro env withPeriod
    unfold act1cBatch
    have := length_filterMap_add_countP
      (fun rp : ActsRow × Option String =>
        if env.normalizeCounterpartyCell rp.1.kontragent = "ГАРАНТОВАНИЙ ПОКУПЕЦЬ" then
          some (env.normalizeCompanyCell rp.1.organizaciya,
            env.normalizeCounterpartyCell rp.1.kontragent, rp.2.getD "",
            (toNumeric rp.1.summa).getD 0)
        else none) withPeriod
    rw [← this]
    congr 1
    apply List.countP_congr
    intro rp _
    by_cases hgb : env.normalizeCounterpartyCell rp.1.kontragent = "ГАРАНТОВАНИЙ ПОКУПЕЦЬ" <;>
      simp [hgb]
  · intro env rows h
    obtain ⟨ys, hys, hall⟩ := mapExcept_ok_of_forall _ rows
      (fun r hr => ⟨some ((h r hr).1.choose), (h r hr).1.choose_spec⟩)
    unfold process1cActs
    rw [hys]
    have hany : (rows.zip ys).any
        (fun rp => rp.2.isNone || (toNumeric rp.1.summa).isNone) = false := by
      rw [List.any_eq_false]
      intro rp hrp
      have hzip := (List.forall₂_iff_zip.mp hall).2 hrp
      obtain ⟨hps, hnum⟩ := h rp.1 (List.of_mem_zip hrp).1
      obtain ⟨p, hp⟩ := hps
      rw [hp, Except.ok.injEq] at hzip
      rw [← hzip]
      simp [Option.isNone_iff_eq_none, hnum]
    dsimp only
    rw [hany]
    simp

theorem guaranteed_buyer_only_witness :
    pC9.2.1 = "ГАРАНТОВАНИЙ ПОКУПЕЦЬ" ∧
    (∀ p, classifyRow ukrgasbankConfig envW none [] ≠ .payment p) ∧
    (("Org", "ГАРАНТОВАНИЙ ПОКУПЕЦЬ", "10-2024", mkRat 1 1) : ActTuple).2.1 =
      "ГАРАНТОВАНИЙ ПОКУПЕЦЬ" ∧
    (∃ n, process1cActs envW [rowA] = .ok n) :=
  ⟨guaranteed_buyer_only.1 ukrgasbankConfig envW none [rowC9] pC9 (by decide),
    guaranteed_buyer_only.2.1 ukrgasbankConfig envW none [] (by decide),
    guaranteed_buyer_only.2.2.2.1 envW [(rowA, some ("10-2024"))]
      (("Org", "ГАРАНТОВАНИЙ ПОКУПЕЦЬ", "10-2024", mkRat 1 1) : ActTuple) (by decide),
    guaranteed_buyer_only.2.2.2.2.2 envW [rowA]
      (by
        intro r hr
        rw [List.mem_singleton] at hr
        subst hr
        exact ⟨⟨"10-2024", rfl⟩, by decide⟩)⟩

theorem mapExcept_error_of {α β : Type} (f : α → Except String β) (rows : List α)
    (msg : String) (hex : ∃ r ∈ rows, f r = .error msg)
    (hall : ∀ r ∈ rows, (∃ e, f r = .error e) → f r = .error msg) :
    mapExcept f rows = .error msg := by
  induction rows with
  | nil => simp at hex
  | cons r rs ih =>
    cases hf : f r with
    | error e =>
      have := hall r (List.mem_cons_self r rs) ⟨e, hf⟩
      simp [mapExcept, this]
    | ok b =>
      obtain ⟨r0, hr0, hfr0⟩ := hex
      rcases List.mem_cons.mp hr0 with rfl | hr0
      · rw [hf] at hfr0
        exact Except.noConfusion hfr0
      · have := ih ⟨r0, hr0, hfr0⟩ (fun a ha he => hall a (List.mem_cons_of_mem r ha) he)
        simp [mapExcept, hf, this]

/-- C10: extract_month_from_date is asymmetric in its failure modes:
NaN input yields None, but a date string outside DATE_FORMATS — such as
"15-10-2024", since DD-MM-YYYY is not in the list — raises ValueError;
consequently a single such cell in the Дата column makes
process_1c_acts fail with that ValueError during the column apply,
rather than the row being counted among the invalid rows. -/
theorem date_parse_failure_asymmetry :
    extractMonthFromDate .na = .ok none ∧
    extractMonthFromDate (.str "15-10-2024") =
      .error ("Не вдалося розпізнати формат дати: 15-10-2024") ∧
    (∀ (env : Env) (rows : List ActsRow),
      (∃ r ∈ rows, r.data = .str "15-10-2024") →
      (∀ r ∈ rows, (∃ e, extractMonthFromDate r.data = .error e) →
        r.data = .str "15-10-2024") →
      process1cActs env rows =
        .error ("Не вдалося розпізнати формат дати: 15-10-2024")) := by
  have hmsg : extractMonthFromDate (.str "15-10-2024") =
      .error ("Не вдалося розпізнати формат дати: 15-10-2024") := by decide
  refine ⟨rfl, hmsg, ?_⟩
  intro env rows hex hall
  have hme : mapExcept (fun r => extractMonthFromDate r.data) rows =
      .error ("Не вдалося розпізнати формат дати: 15-10-2024") := by
    apply mapExcept_error_of
    · obtain ⟨r, hr, hrd⟩ := hex
      exact ⟨r, hr, by rw [hrd]; exact hmsg⟩
    · intro r hr he
      rw [hall r hr he]
      exact hmsg
  unfold process1cActs
  rw [hme]

theorem date_parse_failure_asymmetry_witness :
    process1cActs envW [rowT] =
      .error ("Не вдалося розпізнати формат дати: 15-10-2024") :=
  date_parse_failure_asymmetry.2.2 envW [rowT]
    ⟨rowT, List.mem_singleton_self rowT, by rfl⟩
    (fun r hr _ => by
      rw [List.mem_singleton] at hr
      rw [hr]
      rfl)

/-- C7: an Excel bank statement whose header-0 column set does not
contain the Ukrgasbank columns and whose header-3 column set does not
contain the Oschadbank columns is rejected by
process_bank_statement_excel with the format-not-recognized ValueError,
never returning records. -/
theorem unknown_format_rejected (env : Env) (f : ExcelViews)
    (h0 : columnsSubset ukrColumns f.cols0 = false)
    (h3 : columnsSubset oschadColumns f.cols3 = false) :
    processBankStatementExcel env f =
      .error ("Не вдалося визначити формат банківської виписки.\n" ++
        "Підтримуються формати Ощадбанку (.xlsx) та Укргазбанку (.xls).") := by
  unfold processBankStatementExcel tryProcessUkrgasbank tryProcessOschadbank
  simp [h0, h3]

theorem unknown_format_rejected_witness :
    processBankStatementExcel envW fEmpty =
      .error ("Не вдалося визначити формат банківської виписки.\n" ++
        "Підтримуються формати Ощадбанку (.xlsx) та Укргазбанку (.xls).") :=
  unknown_format_rejected envW fEmpty (by decide) (by decide)

theorem hashLookup_mem {db : List ActDbRow} {h : Option String} {i : ℕ}
    (hc : hashLookup db h = some i) : ∃ a ∈ db, a.id = i := by
  unfold hashLookup at hc
  cases h with
  | none => exact Option.noConfusion hc
  | some hh =>
    dsimp only at hc
    by_cases he : hh = ""
    · rw [if_pos he] at hc
      exact Option.noConfusion hc
    · rw [if_neg he] at hc
      obtain ⟨a, ha, rfl⟩ := Option.map_eq_some'.mp hc
      exact ⟨a, List.mem_of_find?_eq_some ha, rfl⟩

theorem pathLookup_mem {fs : FsEnv} {db : List ActDbRow} {p : String} {i : ℕ}
    (hc : pathLookup fs db p = some i) : ∃ a ∈ db, a.id = i := by
  unfold pathLookup at hc
  cases hr : fs.resolve p with
  | none =>
    rw [hr] at hc
    exact Option.noConfusion hc
  | some ap =>
    rw [hr] at hc
    obtain ⟨a, ha, rfl⟩ := Option.map_eq_some'.mp hc
    exact ⟨a, List.mem_of_find?_eq_some ha, rfl⟩

theorem checkActExists_mem {fs : FsEnv} {db : List ActDbRow} {p : String}
    {h : Option String} {i : ℕ} (hc : checkActExists fs db p h = some i) :
    ∃ a ∈ db, a.id = i := by
  unfold checkActExists at hc
  by_cases hp : p = ""
  · rw [if_pos hp] at hc
    exact Option.noConfusion hc
  · rw [if_neg hp] at hc
    cases hh : hashLookup db (effectiveHash fs p h) with
    | some j =>
      rw [hh] at hc
      rw [Option.some.injEq] at hc
      subst hc
      exact hashLookup_mem hh
    | none =>
      rw [hh] at hc
      exact pathLookup_mem hc

/-- C6: duplicate detection for acts is content-hash first with a path
fallback: check_act_exists returns a stored act's id whenever the
effective (supplied or computed) MD5 hash matches a stored act; only
when the hash is unavailable, empty, or unmatched does it compare the
resolved absolute path; and save_act called with a pdf_path raises a
ValueError instead of inserting whenever check_act_exists reports a
duplicate (positive) id, leaving the store unchanged. -/
theorem act_duplicate_detection :
    (∀ (fs : FsEnv) (db : List ActDbRow) (p : String) (h : String) (a : ActDbRow),
      p ≠ "" → h ≠ "" →
      db.find? (fun a => a.fileHash = some h) = some a →
      checkActExists fs db p (some h) = some a.id) ∧
    (∀ (fs : FsEnv) (db : List ActDbRow) (p : String) (h : String) (a : ActDbRow),
      p ≠ "" → (fs.hashOf p).1 = some h → h ≠ "" →
      db.find? (fun a => a.fileHash = some h) = some a →
      checkActExists fs db p none = some a.id) ∧
    (∀ (fs : FsEnv) (db : List ActDbRow) (p : String) (h : Option String),
      p ≠ "" →
      (∀ hh, effectiveHash fs p h = some hh →
        hh = "" ∨ db.find? (fun a => a.fileHash = some hh) = none) →
      checkActExists fs db p h = pathLookup fs db p) ∧
    (∀ (fs : FsEnv) (db : List ActDbRow) (valErr : Option String) (p rp0 : String) (i : ℕ),
      (∀ a ∈ db, 0 < a.id) →
      p ≠ "" → fs.resolve p = some rp0 →
      checkActExists fs db (fs.nfc rp0) ((fs.hashOf (fs.nfc rp0)).1) = some i →
      ∃ e, saveActDb fs db valErr (some p) = .error e) := by
  refine ⟨?_, ?_, ?_, ?_⟩
  · intro fs db p h a hp hh hfind
    unfold checkActExists
    rw [if_neg hp]
    rw [show effectiveHash fs p (some h) = some h from rfl]
    rw [show hashLookup db (some h) = some a.id from by simp [hashLookup, hh, hfind]]
  · intro fs db p h a hp hhash hh hfind
    unfold checkActExists
    rw [if_neg hp]
    rw [show effectiveHash fs p none = some h from by simp [effectiveHash, hhash]]
    rw [show hashLookup db (some h) = some a.id from by simp [hashLookup, hh, hfind]]
  · intro fs db p h hp hnone
    unfold checkActExists
    rw [if_neg hp]
    cases hh : effectiveHash fs p h with
    | none => rfl
    | some x =>
      rcases hnone x hh with rfl | hfind
      · rw [show hashLookup db (some "") = none from rfl]
      · rw [show hashLookup db (some x) = none from by simp [hashLookup, hfind]]
  · intro fs db valErr p rp0 i hpos hp hres hchk
    cases valErr with
    | some e => exact ⟨e, rfl⟩
    | none =>
      have hi : i ≠ 0 := by
        obtain ⟨a, ha, rfl⟩ := checkActExists_mem hchk
        exact Nat.pos_iff_ne_zero.mp (hpos a ha)
      refine ⟨"Цей PDF файл вже було завантажено раніше (ID: " ++ toString i ++ ")", ?_⟩
      unfold saveActDb
      dsimp only
      rw [if_neg hp, hres]
      dsimp only
      rw [hchk]
      dsimp only
      rw [if_neg hi]

theorem act_duplicate_detection_witness :
    checkActExists fsW dbW ("/b") (some ("h1")) = some 1 ∧
    checkActExists fsW dbW ("/b") none = some 1 ∧
    checkActExists fsW dbW ("/b") (some ("h2")) = pathLookup fsW dbW ("/b") ∧
    (∃ e, saveActDb fsW dbW none (some ("/a")) = .error e) :=
  ⟨act_duplicate_detection.1 fsW dbW ("/b") ("h1") aW (by decide) (by decide) (by decide),
    act_duplicate_detection.2.1 fsW dbW ("/b") ("h1") aW
      (by decide) (by decide) (by decide) (by decide),
    act_duplicate_detection.2.2.1 fsW dbW ("/b") (some ("h2")) (by decide)
      (by
        intro hh hhh
        have h2 : hh = "h2" := by
          have : some ("h2") = some hh := hhh
          exact (Option.some.injEq _ _ ▸ this).symm
        subst h2
        exact Or.inr (by decide)),
    act_duplicate_detection.2.2.2 fsW dbW none ("/a") ("/a") 1
      (by decide) (by decide) (by decide) (by decide)⟩

theorem decDigit_spec (n : ℕ) :
    (decDigit n).isDigit = true ∧ digitVal (decDigit n) = n % 10 ∧
    decDigit n ≠ '.' ∧ decDigit n ≠ '-' ∧ decDigit n ≠ '/' ∧
    decDigit n ≠ ' ' ∧ decDigit n ≠ ':' ∧ (decDigit n).isWhitespace = false := by
  unfold decDigit digitVal
  rcases (by omega :
      n % 10 = 0 ∨ n % 10 = 1 ∨ n % 10 = 2 ∨ n % 10 = 3 ∨ n % 10 = 4 ∨
      n % 10 = 5 ∨ n % 10 = 6 ∨ n % 10 = 7 ∨ n % 10 = 8 ∨ n % 10 = 9) with
    h | h | h | h | h | h | h | h | h | h <;> rw [h] <;> decide

theorem readDigitsAux_cons (acc n : ℕ) (c : Char) (cs : List Char)
    (h : c.isDigit = true) :
    readDigitsAux acc (n + 1) (c :: cs) = readDigitsAux (10 * acc + digitVal c) n cs := by
  simp [readDigitsAux, h]

theorem readDigitsAux_pad2 (acc d : ℕ) (h : d < 100) (rest : List Char) :
    readDigitsAux acc 2 (pad2 d ++ rest) = some (acc * 100 + d, rest) := by
  have h1 := decDigit_spec (d / 10)
  have h2 := decDigit_spec d
  show readDigitsAux acc 2 (decDigit (d / 10) :: decDigit d :: rest) = _
  rw [readDigitsAux_cons _ _ _ _ h1.1, readDigitsAux_cons _ _ _ _ h2.1,
    h1.2.1, h2.2.1]
  show some _ = _
  simp only [Option.some.injEq, Prod.mk.injEq]
  exact ⟨by omega, trivial⟩

theorem readDigitsAux_pad4 (acc y : ℕ) (h : y < 10000) (rest : List Char) :
    readDigitsAux acc 4 (pad4 y ++ rest) = some (acc * 10000 + y, rest) := by
  have h1 := decDigit_spec (y / 1000)
  have h2 := decDigit_spec (y / 100)
  have h3 := decDigit_spec (y / 10)
  have h4 := decDigit_spec y
  show readDigitsAux acc 4
      (decDigit (y / 1000) :: decDigit (y / 100) :: decDigit (y / 10) :: decDigit y :: rest) = _
  rw [readDigitsAux_cons _ _ _ _ h1.1, readDigitsAux_cons _ _ _ _ h2.1,
    readDigitsAux_cons _ _ _ _ h3.1, readDigitsAux_cons _ _ _ _ h4.1,
    h1.2.1, h2.2.1, h3.2.1, h4.2.1]
  show some _ = _
  simp only [Option.some.injEq, Prod.mk.injEq]
  exact ⟨by omega, trivial⟩

theorem matchToksF_lit_ne (n : ℕ) (ts : List Tok) (sep c : Char) (rest : List Char)
    (p : PFields) (h : c ≠ sep) :
    matchToksF n (.lit sep :: ts) (c :: rest) p = none := by
  cases n with
  | zero => rfl
  | succ n => simp [matchToksF, h]

theorem matchToksF_day_pad2 {n : ℕ} {ts : List Tok} {rest : List Char} {p r : PFields}
    (d : ℕ) (h1 : 1 ≤ d) (h2 : d ≤ 31)
    (hcont : matchToksF n ts rest (setField .day d p) = some r) :
    matchToksF (n + 1) (.num .day :: ts) (pad2 d ++ rest) p = some r := by
  have hrd := readDigitsAux_pad2 0 d (by omega) rest
  rw [Nat.zero_mul, Nat.zero_add] at hrd
  simp only [matchToksF, fieldAlts, firstSome, hrd]
  rcases (by omega : (30 ≤ d ∧ d ≤ 31) ∨ (10 ≤ d ∧ d ≤ 29) ∨ (1 ≤ d ∧ d ≤ 9)) with h | h | h
  · rw [if_pos h, hcont]
  · rw [if_neg (by omega), if_pos h, hcont]
  · rw [if_neg (by omega), if_neg (by omega), if_pos h, hcont]

theorem matchToksF_month_pad2 {n : ℕ} {ts : List Tok} {rest : List Char} {p r : PFields}
    (m : ℕ) (h1 : 1 ≤ m) (h2 : m ≤ 12)
    (hcont : matchToksF n ts rest (setField .month m p) = some r) :
    matchToksF (n + 1) (.num .month :: ts) (pad2 m ++ rest) p = some r := by
  have hrd := readDigitsAux_pad2 0 m (by omega) rest
  rw [Nat.zero_mul, Nat.zero_add] at hrd
  simp only [matchToksF, fieldAlts, firstSome, hrd]
  rcases (by omega : (10 ≤ m ∧ m ≤ 12) ∨ (1 ≤ m ∧ m ≤ 9)) with h | h
  · rw [if_pos h, hcont]
  · rw [if_neg (by omega), if_pos h, hcont]

theorem matchToksF_year_pad4 {n : ℕ} {ts : List Tok} {rest : List Char} {p r : PFields}
    (y : ℕ) (h2 : y ≤ 9999)
    (hcont : matchToksF n ts rest (setField .year y p) = some r) :
    matchToksF (n + 1) (.num .year :: ts) (pad4 y ++ rest) p = some r := by
  have hrd := readDigitsAux_pad4 0 y (by omega) rest
  rw [Nat.zero_mul, Nat.zero_add] at hrd
  simp only [matchToksF, fieldAlts, firstSome, hrd]
  rw [if_pos (by omega : 0 ≤ y ∧ y ≤ 9999), hcont]

theorem matchToksF_numsep_fail (n : ℕ) (f : NumField) (hf : f = .day ∨ f = .month)
    (sep : Char) (ts : List Tok) (c1 c2 c3 : Char) (rest : List Char) (p : PFields)
    (h1 : c1.isDigit = true) (h2 : c2.isDigit = true)
    (hc2 : c2 ≠ sep) (hc3 : c3 ≠ sep) :
    matchToksF (n + 1) (.num f :: .lit sep :: ts) (c1 :: c2 :: c3 :: rest) p = none := by
  have e2 : ∀ acc, readDigitsAux acc 2 (c1 :: c2 :: c3 :: rest) =
      some (10 * (10 * acc + digitVal c1) + digitVal c2, c3 :: rest) := by
    intro acc
    rw [readDigitsAux_cons _ _ _ _ h1, readDigitsAux_cons _ _ _ _ h2]
    rfl
  have e1 : ∀ acc, readDigitsAux acc 1 (c1 :: c2 :: c3 :: rest) =
      some (10 * acc + digitVal c1, c2 :: c3 :: rest) := by
    intro acc
    rw [readDigitsAux_cons _ _ _ _ h1]
    rfl
  have l3 := matchToksF_lit_ne n ts sep c3 rest
  have l2 := matchToksF_lit_ne n ts sep c2 (c3 :: rest)
  rcases hf with rfl | rfl <;>
    simp [matchToksF, fieldAlts, firstSome, e1, e2,
      fun p => l3 p hc3, fun p => l2 p hc2, ite_self]

theorem dropWhile_eq_self_of_forall {p : Char → Bool} (cs : List Char)
    (h : ∀ c ∈ cs, p c = false) : cs.dropWhile p = cs := by
  cases cs with
  | nil => rfl
  | cons c t => simp [List.dropWhile_cons, h c (List.mem_cons_self c t)]

theorem pyStripChars_eq_self (cs : List Char)
    (h : ∀ c ∈ cs, c.isWhitespace = false) : pyStripChars cs = cs := by
  unfold pyStripChars
  rw [dropWhile_eq_self_of_forall cs h]
  rw [dropWhile_eq_self_of_forall cs.reverse (fun c hc => h c (List.mem_reverse.mp hc))]
  exact List.reverse_reverse cs

theorem takeWhile_eq_self_of_forall {p : Char → Bool} (cs : List Char)
    (h : ∀ c ∈ cs, p c = true) : cs.takeWhile p = cs := by
  induction cs with
  | nil => rfl
  | cons c t ih =>
    rw [List.takeWhile_cons, h c (List.mem_cons_self c t)]
    simp [ih (fun a ha => h a (List.mem_cons_of_mem c ha))]

theorem rendered_chars_clean (d m y : ℕ) (sep : Char) (hsep : sep ∈ dateSeps) :
    ∀ c ∈ pad2 d ++ sep :: (pad2 m ++ sep :: pad4 y),
      c.isWhitespace = false ∧ c ≠ ' ' := by
  intro c hc
  have hc2 : c = decDigit (d / 10) ∨ c = decDigit d ∨ c = sep ∨
      c = decDigit (m / 10) ∨ c = decDigit m ∨ c = sep ∨ c = decDigit (y / 1000) ∨
      c = decDigit (y / 100) ∨ c = decDigit (y / 10) ∨ c = decDigit y := by
    simpa [pad2, pad4, or_assoc] using hc
  have hdig : ∀ k : ℕ, (decDigit k).isWhitespace = false ∧ decDigit k ≠ ' ' :=
    fun k => ⟨(decDigit_spec k).2.2.2.2.2.2.2, (decDigit_spec k).2.2.2.2.2.1⟩
  have hsepc : sep.isWhitespace = false ∧ sep ≠ ' ' := by
    rcases (by simpa [dateSeps] using hsep : sep = '.' ∨ sep = '-' ∨ sep = '/') with
      rfl | rfl | rfl <;> decide
  rcases hc2 with rfl | rfl | rfl | rfl | rfl | rfl | rfl | rfl | rfl | rfl <;>
    first | exact hdig _ | exact hsepc

theorem daysInMonth_le (y m : ℕ) : daysInMonth y m ≤ 31 := by
  unfold daysInMonth
  split_ifs <;> omega

theorem validDate_true (y m d : ℕ) (hm1 : 1 ≤ m) (hm12 : m ≤ 12) (hd1 : 1 ≤ d)
    (hd2 : d ≤ daysInMonth y m) (hy1 : 1 ≤ y) (hy2 : y ≤ 9999) :
    validDate y m d = true := by
  simp only [validDate, Bool.and_eq_true, decide_eq_true_eq]
  omega

theorem matchToksF_lit_step (n : ℕ) (c : Char) (ts : List Tok) (cs : List Char)
    (p : PFields) :
    matchToksF (n + 1) (.lit c :: ts) (c :: cs) p = matchToksF n ts cs p := by
  simp [matchToksF]

theorem matchToks_dmy (sep : Char) (d m y : ℕ)
    (hd1 : 1 ≤ d) (hd31 : d ≤ 31) (hm1 : 1 ≤ m) (hm12 : m ≤ 12) (hy : y ≤ 9999) :
    matchToks [.num .day, .lit sep, .num .month, .lit sep, .num .year]
      (pad2 d ++ sep :: (pad2 m ++ sep :: pad4 y)) =
      some { year := y, month := m, day := d } := by
  show matchToksF (5 + 1) _ _ _ = _
  apply matchToksF_day_pad2 d hd1 hd31
  show matchToksF (4 + 1) (.lit sep :: [.num .month, .lit sep, .num .year])
    (sep :: (pad2 m ++ sep :: pad4 y)) _ = _
  rw [matchToksF_lit_step 4]
  show matchToksF (3 + 1) _ _ _ = _
  apply matchToksF_month_pad2 m hm1 hm12
  show matchToksF (2 + 1) (.lit sep :: [.num .year]) (sep :: pad4 y) _ = _
  rw [matchToksF_lit_step 2]
  show matchToksF (1 + 1) _ _ _ = _
  rw [← List.append_nil (pad4 y)]
  apply matchToksF_year_pad4 y hy
  rfl

theorem matchToks_ymd (d m y : ℕ)
    (hd1 : 1 ≤ d) (hd31 : d ≤ 31) (hm1 : 1 ≤ m) (hm12 : m ≤ 12) (hy : y ≤ 9999) :
    matchToks [.num .year, .lit '-', .num .month, .lit '-', .num .day]
      (pad4 y ++ '-' :: (pad2 m ++ '-' :: pad2 d)) =
      some { year := y, month := m, day := d } := by
  show matchToksF (5 + 1) _ _ _ = _
  apply matchToksF_year_pad4 y hy
  show matchToksF (4 + 1) (.lit '-' :: [.num .month, .lit '-', .num .day])
    ('-' :: (pad2 m ++ '-' :: pad2 d)) _ = _
  rw [matchToksF_lit_step 4]
  show matchToksF (3 + 1) _ _ _ = _
  apply matchToksF_month_pad2 m hm1 hm12
  show matchToksF (2 + 1) (.lit '-' :: [.num .day]) ('-' :: pad2 d) _ = _
  rw [matchToksF_lit_step 2]
  show matchToksF (1 + 1) _ _ _ = _
  rw [← List.append_nil (pad2 d)]
  apply matchToksF_day_pad2 d hd1 hd31
  rfl

theorem firstSome_cons_some {α β : Type} (f : α → Option β) (x : α) (xs : List α)
    {r : β} (h : f x = some r) : firstSome f (x :: xs) = some r := by
  simp [firstSome, h]

theorem firstSome_cons_none {α β : Type} (f : α → Option β) (x : α) (xs : List α)
    (h : f x = none) : firstSome f (x :: xs) = firstSome f xs := by
  simp [firstSome, h]

theorem matchToks_numsep_fail (f : NumField) (hf : f = .day ∨ f = .month)
    (sep : Char) (ts : List Tok) (c1 c2 c3 : Char) (rest : List Char)
    (h1 : c1.isDigit = true) (h2 : c2.isDigit = true)
    (hc2 : c2 ≠ sep) (hc3 : c3 ≠ sep) :
    matchToks (.num f :: .lit sep :: ts) (c1 :: c2 :: c3 :: rest) = none := by
  unfold matchToks
  exact matchToksF_numsep_fail _ f hf sep ts c1 c2 c3 rest {} h1 h2 hc2 hc3

theorem pyStrptime_none_of_matchToks {fmt : List Tok} {cs : List Char}
    (h : matchToks fmt cs = none) : pyStrptime fmt cs = none := by
  unfold pyStrptime
  rw [h]

theorem pyStrptime_some {fmt : List Tok} {cs : List Char} {p : PFields}
    (h : matchToks fmt cs = some p) (hv : validDate p.year p.month p.day = true) :
    pyStrptime fmt cs = some p := by
  unfold pyStrptime
  rw [h]
  dsimp only
  rw [hv]
  rfl

theorem iso_chars_clean (d m y : ℕ) :
    ∀ c ∈ pad4 y ++ '-' :: (pad2 m ++ '-' :: pad2 d),
      c.isWhitespace = false ∧ c ≠ ' ' := by
  intro c hc
  have hc2 : c = decDigit (y / 1000) ∨ c = decDigit (y / 100) ∨ c = decDigit (y / 10) ∨
      c = decDigit y ∨ c = '-' ∨ c = decDigit (m / 10) ∨ c = decDigit m ∨
      c = '-' ∨ c = decDigit (d / 10) ∨ c = decDigit d := by
    simpa [pad2, pad4, or_assoc] using hc
  have hdig : ∀ k : ℕ, (decDigit k).isWhitespace = false ∧ decDigit k ≠ ' ' :=
    fun k => ⟨(decDigit_spec k).2.2.2.2.2.2.2, (decDigit_spec k).2.2.2.2.2.1⟩
  rcases hc2 with rfl | rfl | rfl | rfl | rfl | rfl | rfl | rfl | rfl | rfl <;>
    first | exact hdig _ | decide

theorem parseBankDate_str (cs : List Char) :
    parseBankDate (.str (String.mk cs)) =
      firstSome (fmtToIso ((pyStripChars cs).takeWhile (fun c => c ≠ ' ')))
        bankDateFormats := rfl

theorem fmtMap_none {cs : List Char} {fmt : List Tok} (h : pyStrptime fmt cs = none) :
    fmtToIso cs fmt = none := by
  unfold fmtToIso
  rw [h]

theorem fmtMap_some {cs : List Char} {fmt : List Tok} {p : PFields}
    (h : pyStrptime fmt cs = some p) :
    fmtToIso cs fmt = some (isoOfDate p.year p.month p.day) := by
  unfold fmtToIso
  rw [h]

theorem parseBankDate_rendered (d m y : ℕ) (hm1 : 1 ≤ m) (hm12 : m ≤ 12)
    (hd1 : 1 ≤ d) (hd2 : d ≤ daysInMonth y m) (hy1 : 1000 ≤ y) (hy2 : y ≤ 9999) :
    parseBankDate (.str (String.mk (pad2 d ++ '.' :: (pad2 m ++ '.' :: pad4 y)))) =
      some (isoOfDate y m d) ∧
    parseBankDate (.str (String.mk (pad2 d ++ '-' :: (pad2 m ++ '-' :: pad4 y)))) =
      some (isoOfDate y m d) ∧
    parseBankDate (.str (String.mk (pad2 d ++ '/' :: (pad2 m ++ '/' :: pad4 y)))) =
      some (isoOfDate y m d) ∧
    parseBankDate (.str (isoOfDate y m d)) = some (isoOfDate y m d) := by
  have hd31 : d ≤ 31 := le_trans hd2 (daysInMonth_le y m)
  have hv : validDate y m d = true := validDate_true y m d hm1 hm12 hd1 hd2 (by omega) hy2
  have hDd := decDigit_spec (d / 10)
  have hD := decDigit_spec d
  have hY1 := decDigit_spec (y / 1000)
  have hY2 := decDigit_spec (y / 100)
  have hY3 := decDigit_spec (y / 10)
  have hclean : ∀ (sep : Char), sep ∈ dateSeps →
      (pyStripChars (pad2 d ++ sep :: (pad2 m ++ sep :: pad4 y))).takeWhile
        (fun c => c ≠ ' ') = pad2 d ++ sep :: (pad2 m ++ sep :: pad4 y) := by
    intro sep hsep
    rw [pyStripChars_eq_self _ (fun c hc => (rendered_chars_clean d m y sep hsep c hc).1)]
    exact takeWhile_eq_self_of_forall _
      (fun c hc => by
        simp [decide_eq_true_eq, (rendered_chars_clean d m y sep hsep c hc).2])
  have hcleanIso :
      (pyStripChars (pad4 y ++ '-' :: (pad2 m ++ '-' :: pad2 d))).takeWhile
        (fun c => c ≠ ' ') = pad4 y ++ '-' :: (pad2 m ++ '-' :: pad2 d) := by
    rw [pyStripChars_eq_self _ (fun c hc => (iso_chars_clean d m y c hc).1)]
    exact takeWhile_eq_self_of_forall _
      (fun c hc => by
        simp [decide_eq_true_eq, (iso_chars_clean d m y c hc).2])
  have hok : ∀ (sep : Char),
      pyStrptime [.num .day, .lit sep, .num .month, .lit sep, .num .year]
        (pad2 d ++ sep :: (pad2 m ++ sep :: pad4 y)) =
        some { year := y, month := m, day := d } :=
    fun sep => pyStrptime_some (matchToks_dmy sep d m y hd1 hd31 hm1 hm12 (by omega)) hv
  have hokIso :
      pyStrptime [.num .year, .lit '-', .num .month, .lit '-', .num .day]
        (pad4 y ++ '-' :: (pad2 m ++ '-' :: pad2 d)) =
        some { year := y, month := m, day := d } :=
    pyStrptime_some (matchToks_ymd d m y hd1 hd31 hm1 hm12 (by omega)) hv
  have hfail : ∀ (sep sep2 : Char) (rest : List Char), sep2 ≠ sep → decDigit d ≠ sep →
      pyStrptime [.num .day, .lit sep, .num .month, .lit sep, .num .year]
        (pad2 d ++ sep2 :: rest) = none :=
    fun sep sep2 rest h32 hds =>
      pyStrptime_none_of_matchToks
        (matchToks_numsep_fail .day (Or.inl rfl) sep [.num .month, .lit sep, .num .year]
          _ _ _ _ hDd.1 hD.1 hds h32)
  have hfailIso : ∀ (sep : Char), decDigit (y / 100) ≠ sep → decDigit (y / 10) ≠ sep →
      pyStrptime [.num .day, .lit sep, .num .month, .lit sep, .num .year]
        (pad4 y ++ '-' :: (pad2 m ++ '-' :: pad2 d)) = none :=
    fun sep h2 h3 =>
      pyStrptime_none_of_matchToks
        (matchToks_numsep_fail .day (Or.inl rfl) sep [.num .month, .lit sep, .num .year]
          _ _ _ _ hY1.1 hY2.1 h2 h3)
  refine ⟨?_, ?_, ?_, ?_⟩
  · rw [parseBankDate_str]
    simp only [bankDateFormats, fmtDMYdot, fmtDMYdash, fmtDMYslash, fmtYMDdash]
    rw [hclean '.' (by decide)]
    rw [firstSome_cons_some _ _ _ (fmtMap_some (hok '.'))]
  · rw [parseBankDate_str]
    simp only [bankDateFormats, fmtDMYdot, fmtDMYdash, fmtDMYslash, fmtYMDdash]
    rw [hclean '-' (by decide)]
    rw [firstSome_cons_none _ _ _ (fmtMap_none (hfail '.' '-' (pad2 m ++ '-' :: pad4 y) (by decide) hD.2.2.1))]
    rw [firstSome_cons_some _ _ _ (fmtMap_some (hok '-'))]
  · rw [parseBankDate_str]
    simp only [bankDateFormats, fmtDMYdot, fmtDMYdash, fmtDMYslash, fmtYMDdash]
    rw [hclean '/' (by decide)]
    rw [firstSome_cons_none _ _ _ (fmtMap_none (hfail '.' '/' (pad2 m ++ '/' :: pad4 y) (by decide) hD.2.2.1))]
    rw [firstSome_cons_none _ _ _ (fmtMap_none (hfail '-' '/' (pad2 m ++ '/' :: pad4 y) (by decide) hD.2.2.2.1))]
    rw [firstSome_cons_some _ _ _ (fmtMap_some (hok '/'))]
  · rw [show isoOfDate y m d =
      String.mk (pad4 y ++ '-' :: (pad2 m ++ '-' :: pad2 d)) from rfl]
    rw [parseBankDate_str]
    simp only [bankDateFormats, fmtDMYdot, fmtDMYdash, fmtDMYslash, fmtYMDdash]
    rw [hcleanIso]
    rw [firstSome_cons_none _ _ _ (fmtMap_none (hfailIso '.' hY2.2.2.1 hY3.2.2.1))]
    rw [firstSome_cons_none _ _ _ (fmtMap_none (hfailIso '-' hY2.2.2.2.1 hY3.2.2.2.1))]
    rw [firstSome_cons_none _ _ _
      (fmtMap_none (hfailIso '/' hY2.2.2.2.2.1 hY3.2.2.2.2.1))]
    rw [firstSome_cons_some _ _ _ (fmtMap_some hokIso)]
    rfl

/-- C4: date parsing round-trips the supported input formats to one ISO
output: "15.10.2024", "15-10-2024" and "2024-10-15" all parse to
"2024-10-15"; in general every valid calendar date with a four-digit
year rendered in any of the four supported formats parses back to that
date formatted as YYYY-MM-DD. -/
theorem date_parsing_round_trip :
    parseBankDate (.str "15.10.2024") = some "2024-10-15" ∧
    parseBankDate (.str "15-10-2024") = some "2024-10-15" ∧
    parseBankDate (.str "2024-10-15") = some "2024-10-15" ∧
    (∀ d m y : ℕ, 1 ≤ m → m ≤ 12 → 1 ≤ d → d ≤ daysInMonth y m →
      1000 ≤ y → y ≤ 9999 →
      parseBankDate (.str (String.mk (pad2 d ++ '.' :: (pad2 m ++ '.' :: pad4 y)))) =
        some (isoOfDate y m d) ∧
      parseBankDate (.str (String.mk (pad2 d ++ '-' :: (pad2 m ++ '-' :: pad4 y)))) =
        some (isoOfDate y m d) ∧
      parseBankDate (.str (String.mk (pad2 d ++ '/' :: (pad2 m ++ '/' :: pad4 y)))) =
        some (isoOfDate y m d) ∧
      parseBankDate (.str (isoOfDate y m d)) = some (isoOfDate y m d)) :=
  ⟨by decide, by decide, by decide,
    fun d m y hm1 hm12 hd1 hd2 hy1 hy2 =>
      parseBankDate_rendered d m y hm1 hm12 hd1 hd2 hy1 hy2⟩

theorem date_parsing_round_trip_witness :
    parseBankDate (.str (String.mk (pad2 15 ++ '.' :: (pad2 10 ++ '.' :: pad4 2024)))) =
      some (isoOfDate 2024 10 15) ∧
    parseBankDate (.str (String.mk (pad2 15 ++ '-' :: (pad2 10 ++ '-' :: pad4 2024)))) =
      some (isoOfDate 2024 10 15) ∧
    parseBankDate (.str (String.mk (pad2 15 ++ '/' :: (pad2 10 ++ '/' :: pad4 2024)))) =
      some (isoOfDate 2024 10 15) ∧
    parseBankDate (.str (isoOfDate 2024 10 15)) = some (isoOfDate 2024 10 15) :=
  date_parsing_round_trip.2.2.2 15 10 2024 (by decide) (by decide) (by decide)
    (by decide) (by decide) (by decide)

end Deb
